import Mathlib

/-!
# Verification of the `SkipGramDataset` pair generator

Shallow embedding of the `SkipGramDataset` class from the word-embedding notebook of the repository:

```python
class SkipGramDataset(Dataset):
    def __init__(self, text, window_size=4):
        self.window_size = window_size
        self.data = []
        for i, center_word in enumerate(text):
            for j in range(i - window_size, i + window_size + 1):
                if j != i and j >= 0 and j < len(text):
                    self.data.append((center_word, text[j]))

    def __len__(self):
        return len(self.data)

    def __getitem__(self, idx):
        return self.data[idx]
```

Token ids are integers, so the sequence is a `List Int`. `window_size` is an
`Int`, because Python allows a negative argument there. The Python
`range(a, b)` over integers becomes `intRange a b`, and `enumerate(text)`
becomes `text.enum`. The guarded read `text[j]` (only reached under
`0 ≤ j < len(text)`) becomes `text.getD j.toNat 0`.
-/

/-- The Python `range(a, b)` over integers: the integers `a, a+1, …, b-1`
(empty when `b ≤ a`). -/
def intRange (a b : Int) : List Int :=
  (List.range (b - a).toNat).map (fun k : Nat => a + (k : Int))

/-- The list built in `self.data` by `SkipGramDataset.__init__`: for each
`(i, center_word)` of `enumerate(text)` and each `j` of
`range(i - window_size, i + window_size + 1)` with
`j != i and j >= 0 and j < len(text)`, the pair `(center_word, text[j])`. -/
def skipGramData (text : List Int) (window_size : Int) : List (Int × Int) :=
  text.enum.flatMap (fun ic =>
    (intRange ((ic.1 : Int) - window_size) ((ic.1 : Int) + window_size + 1)).filterMap
      (fun j =>
        if j ≠ (ic.1 : Int) ∧ 0 ≤ j ∧ j < (text.length : Int)
        then some (ic.2, text.getD j.toNat 0) else none))

/-- The state of a constructed `SkipGramDataset`: its two instance
attributes. -/
structure SkipGramDataset where
  window_size : Int
  data : List (Int × Int)
deriving DecidableEq, Repr

/-- `SkipGramDataset.__init__`: stores `window_size` and the generated pair
list `data`. -/
def SkipGramDataset.init (text : List Int) (window_size : Int) : SkipGramDataset :=
  ⟨window_size, skipGramData text window_size⟩

/-- `SkipGramDataset.__init__` viewed as a fallible call. The body of the
source `__init__` contains no `raise` and no operation that can fail on an
integer list and an integer window size (`range` accepts any integer bounds
and the read `text[j]` is guarded by `0 <= j < len(text)`), so the
translation always returns `ok`. -/
def SkipGramDataset.initE (text : List Int) (window_size : Int) :
    Except String SkipGramDataset :=
  Except.ok (SkipGramDataset.init text window_size)

/-- `SkipGramDataset.__len__`: `len(self.data)`. -/
def SkipGramDataset.len (d : SkipGramDataset) : Nat :=
  d.data.length

/-- `SkipGramDataset.__getitem__`: `self.data[idx]`, `none` standing for the
`IndexError` Python raises out of range. -/
def SkipGramDataset.getitem (d : SkipGramDataset) (idx : Nat) : Option (Int × Int) :=
  d.data[idx]?

/-- The reference brute-force double loop, written from the words of the spec:
for each index `i` in increasing order, for each `j` in the closed range
`[i - w, i + w]` in increasing order, skip `j == i`, skip `j` outside
`[0, len(S) - 1]`, and emit `(S[i], S[j])`. -/
def bruteForcePairs (S : List Int) (w : Int) : List (Int × Int) :=
  (List.range S.length).flatMap (fun i =>
    (intRange ((i : Int) - w) ((i : Int) + w + 1)).filterMap (fun j =>
      if j = (i : Int) then none
      else if j < 0 ∨ (S.length : Int) ≤ j then none
      else some (S.getD i 0, S.getD j.toNat 0)))

/-! ## Basic lemmas about the embedding -/

lemma mem_intRange {j a b : Int} : j ∈ intRange a b ↔ a ≤ j ∧ j < b := by
  simp only [intRange, List.mem_map, List.mem_range]
  constructor
  · rintro ⟨k, hk, rfl⟩
    omega
  · intro h
    exact ⟨(j - a).toNat, by omega, by omega⟩

lemma enum_eq_range_map (l : List Int) :
    l.enum = (List.range l.length).map (fun i => (i, l.getD i 0)) := by
  induction l with
  | nil => rfl
  | cons a l ih =>
    rw [List.enum_cons', ih, List.length_cons, List.range_succ_eq_map]
    simp [List.map_map, Function.comp]

/-- Normal form of the generator: a flat map over the index range, with the
center read off by `getD`. -/
lemma skipGramData_eq_range (S : List Int) (w : Int) :
    skipGramData S w = (List.range S.length).flatMap (fun i =>
      (intRange ((i : Int) - w) ((i : Int) + w + 1)).filterMap (fun j =>
        if j ≠ (i : Int) ∧ 0 ≤ j ∧ j < (S.length : Int)
        then some (S.getD i 0, S.getD j.toNat 0) else none)) := by
  rw [skipGramData, enum_eq_range_map, List.flatMap_map]

lemma inner_filterMap_nil_of_short (S : List Int) (w : Int) (i : Nat)
    (hi : i < S.length) (hS : S.length ≤ 1) :
    (intRange ((i : Int) - w) ((i : Int) + w + 1)).filterMap (fun j =>
        if j ≠ (i : Int) ∧ 0 ≤ j ∧ j < (S.length : Int)
        then some (S.getD i 0, S.getD j.toNat 0) else none) = [] := by
  rw [List.filterMap_eq_nil_iff]
  intro j hj
  rw [mem_intRange] at hj
  split
  · rename_i hcond
    exfalso
    omega
  · rfl

/-- Claim C5: a sequence of length 0 or 1 produces an empty pair list, for
every window size. -/
theorem skipGramData_short_seq_nil (w a : Int) :
    skipGramData [] w = [] ∧ skipGramData [a] w = [] := by
  constructor
  · rfl
  · rw [skipGramData_eq_range, List.flatMap_eq_nil_iff]
    intro i hi
    exact inner_filterMap_nil_of_short [a] w i (List.mem_range.mp hi) (by simp)

/-- Claim C6: for a non-empty sequence and window size 0, the pair list is
empty, because the only candidate index `j = i` is excluded as a self-pair. -/
theorem skipGramData_window_zero_nil (S : List Int) (_hS : S ≠ []) :
    skipGramData S 0 = [] := by
  rw [skipGramData_eq_range, List.flatMap_eq_nil_iff]
  intro i hi
  rw [List.filterMap_eq_nil_iff]
  intro j hj
  rw [mem_intRange] at hj
  split
  · rename_i hcond
    exfalso
    omega
  · rfl

/-- Witness for C6 at the concrete sequence `[10]`. -/
theorem skipGramData_window_zero_nil_witness :
    ([10] : List Int) ≠ [] ∧ skipGramData [10] 0 = [] :=
  ⟨by decide, skipGramData_window_zero_nil [10] (by decide)⟩

/-- Claim C7: the generator output on the two concrete scenarios of the
spec, in the stated order. -/
theorem skipGramData_concrete_examples :
    skipGramData [10, 11, 12] 1 = [(10, 11), (11, 10), (11, 12), (12, 11)] ∧
      skipGramData [10, 11, 12, 13] 2 =
        [(10, 11), (10, 12), (11, 10), (11, 12), (11, 13),
         (12, 10), (12, 11), (12, 13), (13, 11), (13, 12)] := by
  constructor
  · decide
  · decide

/-- Claim C8: pair generation is a deterministic function of the sequence
and the window size: equal inputs give equal constructed datasets. Mutation
of the input and other side effects do not exist in this embedding, matching
the source, whose `__init__` only reads `text`. -/
theorem skipGramDataset_deterministic (S1 S2 : List Int) (w1 w2 : Int)
    (hS : S1 = S2) (hw : w1 = w2) :
    SkipGramDataset.init S1 w1 = SkipGramDataset.init S2 w2 ∧
      skipGramData S1 w1 = skipGramData S2 w2 := by
  rw [hS, hw]
  exact ⟨rfl, rfl⟩

/-- Witness for C8: two runs on `[10, 11, 12]` with window size 1. -/
theorem skipGramDataset_deterministic_witness :
    SkipGramDataset.init [10, 11, 12] 1 = SkipGramDataset.init [10, 11, 12] 1 ∧
      skipGramData [10, 11, 12] 1 = skipGramData [10, 11, 12] 1 :=
  skipGramDataset_deterministic [10, 11, 12] [10, 11, 12] 1 1 rfl rfl

/-- Counterexample to claim C3: with the negative window size `-1` on
`[10, 11, 12]`, construction does not fail with an invalid-argument error;
it returns normally, with an empty pair list (the Python `range` is simply
empty for those bounds). -/
theorem skipGramDataset_neg_window_cex :
    SkipGramDataset.initE [10, 11, 12] (-1) = Except.ok ⟨-1, []⟩ := by
  rfl

/-- Claim C3 as amended: for every sequence and every negative window size,
construction succeeds (no error is raised) and the pair list is empty. -/
theorem skipGramDataset_neg_window_ok_empty (S : List Int) (w : Int)
    (hw : w < 0) :
    SkipGramDataset.initE S w = Except.ok ⟨w, []⟩ := by
  have hdata : skipGramData S w = [] := by
    rw [skipGramData_eq_range, List.flatMap_eq_nil_iff]
    intro i hi
    have hrange : intRange ((i : Int) - w) ((i : Int) + w + 1) = [] := by
      rw [intRange]
      have h0 : ((i : Int) + w + 1 - ((i : Int) - w)).toNat = 0 := by omega
      rw [h0]
      rfl
    rw [hrange]
    rfl
  rw [SkipGramDataset.initE, SkipGramDataset.init, hdata]

/-- Witness for the amended C3 at `S = [10, 11, 12]`, `w = -1`. -/
theorem skipGramDataset_neg_window_ok_empty_witness :
    (-1 : Int) < 0 ∧ SkipGramDataset.initE [10, 11, 12] (-1) = Except.ok ⟨-1, []⟩ :=
  ⟨by decide, skipGramDataset_neg_window_ok_empty [10, 11, 12] (-1) (by decide)⟩

/-- Claim C1: the generator emits exactly the brute-force enumeration, element
for element and in the same order. -/
theorem skipGramData_eq_bruteForce (S : List Int) (w : Nat) :
    skipGramData S (w : Int) = bruteForcePairs S (w : Int) := by
  rw [skipGramData_eq_range, bruteForcePairs]
  apply List.flatMap_congr
  intro i hi
  apply List.filterMap_congr
  intro j hj
  split_ifs <;> first | rfl | omega

/-- Claim C2: every emitted pair arises from positions `(i, j)` with `i` a
valid index, `j` a valid index distinct from `i`, `|j - i| ≤ w`, and the pair
equal to `(S[i], S[j])`. -/
theorem skipGramData_pairs_sound (S : List Int) (w : Nat) (p : Int × Int)
    (hp : p ∈ skipGramData S (w : Int)) :
    ∃ i j : Nat, i < S.length ∧ j < S.length ∧ j ≠ i ∧
      ((j : Int) - (i : Int)).natAbs ≤ w ∧ p = (S.getD i 0, S.getD j 0) := by
  rw [skipGramData_eq_range, List.mem_flatMap] at hp
  obtain ⟨i, hi, hmem⟩ := hp
  rw [List.mem_range] at hi
  rw [List.mem_filterMap] at hmem
  obtain ⟨j, hj, hsome⟩ := hmem
  rw [mem_intRange] at hj
  have hcond : j ≠ (i : Int) ∧ 0 ≤ j ∧ j < (S.length : Int) ∧
      p = (S.getD i 0, S.getD j.toNat 0) := by
    by_cases h : j ≠ (i : Int) ∧ 0 ≤ j ∧ j < (S.length : Int)
    · rw [if_pos h] at hsome
      exact ⟨h.1, h.2.1, h.2.2, (Option.some_injective _ hsome).symm⟩
    · rw [if_neg h] at hsome
      exact absurd hsome (by simp)
  obtain ⟨hne, hj0, hjlen, hpair⟩ := hcond
  exact ⟨i, j.toNat, hi, by omega, by omega, by omega, by rw [hpair]⟩

/-- Witness for C2 at `S = [10, 11]`, `w = 1`, `p = (10, 11)`. -/
theorem skipGramData_pairs_sound_witness :
    (10, 11) ∈ skipGramData [10, 11] 1 ∧
      ∃ i j : Nat, i < ([10, 11] : List Int).length ∧
        j < ([10, 11] : List Int).length ∧ j ≠ i ∧
        ((j : Int) - (i : Int)).natAbs ≤ 1 ∧
        ((10 : Int), (11 : Int)) =
          (([10, 11] : List Int).getD i 0, ([10, 11] : List Int).getD j 0) :=
  ⟨by decide, skipGramData_pairs_sound [10, 11] 1 (10, 11) (by decide)⟩

/-- Claim C9: `__len__` returns the number of pairs emitted at construction,
and for every in-range index `__getitem__` returns the pair at that position
of the generation order (never failing in range). -/
theorem skipGramDataset_len_getitem (text : List Int) (w : Int) (k : Nat)
    (hk : k < (SkipGramDataset.init text w).len) :
    (SkipGramDataset.init text w).len = (skipGramData text w).length ∧
      (SkipGramDataset.init text w).getitem k =
        some ((skipGramData text w).getD k (0, 0)) := by
  refine ⟨rfl, ?_⟩
  have hk' : k < (skipGramData text w).length := hk
  show (skipGramData text w)[k]? = _
  rw [List.getElem?_eq_getElem hk', List.getD_eq_getElem _ _ hk']

/-- Witness for C9 at `text = [10, 11, 12]`, `w = 1`, `k = 2`. -/
theorem skipGramDataset_len_getitem_witness :
    2 < (SkipGramDataset.init [10, 11, 12] 1).len ∧
      ((SkipGramDataset.init [10, 11, 12] 1).len =
          (skipGramData [10, 11, 12] 1).length ∧
        (SkipGramDataset.init [10, 11, 12] 1).getitem 2 =
          some ((skipGramData [10, 11, 12] 1).getD 2 (0, 0))) :=
  ⟨by decide, skipGramDataset_len_getitem [10, 11, 12] 1 2 (by decide)⟩

lemma intRange_append (a b c : Int) (hab : a ≤ b) (hbc : b ≤ c) :
    intRange a b ++ intRange b c = intRange a c := by
  rw [intRange, intRange, intRange]
  have h1 : (c - a).toNat = (b - a).toNat + (c - b).toNat := by omega
  rw [h1, List.range_add, List.map_append, List.map_map]
  congr 1
  apply List.map_congr_left
  intro k hk
  simp only [Function.comp_apply]
  omega

lemma flatMap_sublist {α β : Type} (l : List α) (f g : α → List β)
    (h : ∀ a ∈ l, (f a).Sublist (g a)) :
    (l.flatMap f).Sublist (l.flatMap g) := by
  induction l with
  | nil => simp
  | cons a l ih =>
    rw [List.flatMap_cons, List.flatMap_cons]
    exact (h a (List.mem_cons_self a l)).append
      (ih (fun x hx => h x (List.mem_cons_of_mem a hx)))

/-- Claim C10: pair generation is monotone in the window size: for
`w1 ≤ w2` the `w1` pair list is a subsequence of the `w2` pair list, and
the pair count is therefore non-decreasing. -/
theorem skipGramData_window_monotone (S : List Int) (w1 w2 : Nat)
    (h : w1 ≤ w2) :
    (skipGramData S (w1 : Int)).Sublist (skipGramData S (w2 : Int)) ∧
      (skipGramData S (w1 : Int)).length ≤ (skipGramData S (w2 : Int)).length := by
  have hsub : (skipGramData S (w1 : Int)).Sublist (skipGramData S (w2 : Int)) := by
    rw [skipGramData_eq_range, skipGramData_eq_range]
    apply flatMap_sublist
    intro i hi
    have h1 : intRange ((i : Int) - w1) ((i : Int) + w1 + 1)
        ++ intRange ((i : Int) + w1 + 1) ((i : Int) + w2 + 1)
        = intRange ((i : Int) - w1) ((i : Int) + w2 + 1) :=
      intRange_append _ _ _ (by omega) (by omega)
    have h2 : intRange ((i : Int) - w2) ((i : Int) - w1)
        ++ intRange ((i : Int) - w1) ((i : Int) + w2 + 1)
        = intRange ((i : Int) - w2) ((i : Int) + w2 + 1) :=
      intRange_append _ _ _ (by omega) (by omega)
    rw [← h2, ← h1, List.filterMap_append, List.filterMap_append]
    exact (List.sublist_append_left _ _).trans (List.sublist_append_right _ _)
  exact ⟨hsub, hsub.length_le⟩

/-- Witness for C10 at `S = [10, 11, 12]`, `w1 = 1`, `w2 = 2`. -/
theorem skipGramData_window_monotone_witness :
    1 ≤ 2 ∧
      ((skipGramData [10, 11, 12] ((1 : Nat) : Int)).Sublist
          (skipGramData [10, 11, 12] ((2 : Nat) : Int)) ∧
        (skipGramData [10, 11, 12] ((1 : Nat) : Int)).length ≤
          (skipGramData [10, 11, 12] ((2 : Nat) : Int)).length) :=
  ⟨by decide, skipGramData_window_monotone [10, 11, 12] 1 2 (by decide)⟩

/-! ## Counting the emitted pairs -/

lemma length_filterMap_ite {α β : Type} (l : List α) (p : α → Prop)
    [DecidablePred p] (g : α → β) :
    (l.filterMap (fun a => if p a then some (g a) else none)).length
      = l.countP (fun a => decide (p a)) := by
  induction l with
  | nil => rfl
  | cons a l ih =>
    by_cases h : p a <;>
      simp [List.filterMap_cons, List.countP_cons, h, ih]

lemma countP_or_split {α : Type} (l : List α) (p q : α → Bool)
    (h : ∀ a ∈ l, ¬(p a = true ∧ q a = true)) :
    l.countP (fun a => p a || q a) = l.countP p + l.countP q := by
  induction l with
  | nil => rfl
  | cons a l ih =>
    rw [List.countP_cons, List.countP_cons, List.countP_cons,
      ih (fun x hx => h x (List.mem_cons_of_mem a hx))]
    have ha := h a (List.mem_cons_self a l)
    cases hp : p a <;> cases hq : q a <;> simp [hp, hq] at ha ⊢ <;> omega

lemma countP_range_interval (n : Nat) (a lo hi : Int) :
    (((List.range n).countP
        (fun k : Nat => decide (lo ≤ a + (k : Int) ∧ a + (k : Int) ≤ hi))) : Int)
      = max 0 (min ((n : Int) + a) (hi + 1) - max a lo) := by
  induction n with
  | zero =>
    simp only [List.range_zero, List.countP_nil, Nat.cast_zero]
    omega
  | succ n ih =>
    rw [List.range_succ, List.countP_append]
    have hsingle : (List.countP
        (fun k : Nat => decide (lo ≤ a + (k : Int) ∧ a + (k : Int) ≤ hi)) [n])
        = if lo ≤ a + (n : Int) ∧ a + (n : Int) ≤ hi then 1 else 0 := by
      simp [List.countP_cons]
    rw [hsingle]
    push_cast
    rw [ih]
    split_ifs with h <;> omega

lemma inner_length_eq (S : List Int) (w : Nat) (i : Nat) (hi : i < S.length) :
    (((intRange ((i : Int) - (w : Int)) ((i : Int) + (w : Int) + 1)).filterMap
        (fun j =>
          if j ≠ (i : Int) ∧ 0 ≤ j ∧ j < (S.length : Int)
          then some (S.getD i 0, S.getD j.toNat 0) else none)).length : Int)
      = min ((i : Int) + (w : Int)) ((S.length : Int) - 1)
          - max ((i : Int) - (w : Int)) 0 := by
  rw [length_filterMap_ite, intRange]
  have h2w : (((i : Int) + (w : Int) + 1) - ((i : Int) - (w : Int))).toNat
      = 2 * w + 1 := by omega
  rw [h2w, List.countP_map]
  have hcongr : ∀ k ∈ List.range (2 * w + 1),
      (((fun j => decide (j ≠ (i : Int) ∧ 0 ≤ j ∧ j < (S.length : Int))) ∘
        (fun k : Nat => ((i : Int) - (w : Int)) + (k : Int))) k = true)
      ↔ (((fun k : Nat =>
            decide (0 ≤ ((i : Int) - (w : Int)) + (k : Int) ∧
              ((i : Int) - (w : Int)) + (k : Int) ≤ (i : Int) - 1)
            || decide ((i : Int) + 1 ≤ ((i : Int) - (w : Int)) + (k : Int) ∧
              ((i : Int) - (w : Int)) + (k : Int) ≤ (S.length : Int) - 1)) k) = true) := by
    intro k hk
    simp only [Function.comp_apply, decide_eq_true_eq, Bool.or_eq_true]
    omega
  rw [List.countP_congr hcongr, countP_or_split]
  · have e1 := countP_range_interval (2 * w + 1) ((i : Int) - (w : Int)) 0
      ((i : Int) - 1)
    have e2 := countP_range_interval (2 * w + 1) ((i : Int) - (w : Int))
      ((i : Int) + 1) ((S.length : Int) - 1)
    push_cast
    push_cast at e1 e2
    rw [e1, e2]
    omega
  · intro k hk
    simp only [decide_eq_true_eq]
    omega

lemma sum_map_range {M : Type} [AddCommMonoid M] (n : Nat) (f : Nat → M) :
    ((List.range n).map f).sum = ∑ i in Finset.range n, f i := by
  induction n with
  | zero => simp
  | succ n ih =>
    rw [List.range_succ, List.map_append, List.sum_append,
      Finset.sum_range_succ, ih]
    simp

/-- Claim C4: the number of emitted pairs is the sum, over every center
index `i`, of `min(i + w, len(S) - 1) - max(i - w, 0)`: the size of the
in-range closed window around `i` minus one for the excluded self-pair. -/
theorem skipGramData_length_formula (S : List Int) (w : Nat) :
    ((skipGramData S (w : Int)).length : Int) =
      ∑ i in Finset.range S.length,
        (min ((i : Int) + (w : Int)) ((S.length : Int) - 1)
          - max ((i : Int) - (w : Int)) 0) := by
  rw [skipGramData_eq_range, List.flatMap_def, List.length_flatten,
    List.map_map, sum_map_range]
  push_cast
  apply Finset.sum_congr rfl
  intro i hi
  simp only [Function.comp_apply]
  exact inner_length_eq S w i (Finset.mem_range.mp hi)
